import Mathlib

/- Shallow embedding of the MicroFlo runtime core.
   Sources: src/microflo/microflo.h (class and constant declarations, the
   inline Packet predicates, the MICROFLO_DEBUG macro) and the Stellaris
   target code embedded in src/doc/braindump.md (gMagic, StellarisIO).
   Method bodies that the repository does not ship under src are modelled
   from the specification; each such definition says so in its doc comment. -/

/-- Modelled from the spec: the packet kind enumeration lives in
commandformat.h, which is not under src. Kinds and the two sentinels follow
the data model section: Void, Boolean, Byte, Ascii, Integer, Float,
BracketStart, BracketEnd, Setup, Tick, bracketed by Invalid and MaxDefined. -/
inductive Msg where
  | MsgInvalid
  | MsgSetup
  | MsgTick
  | MsgVoid
  | MsgBoolean
  | MsgByte
  | MsgAscii
  | MsgInteger
  | MsgFloat
  | MsgBracketStart
  | MsgBracketEnd
  | MsgMaxDefined
deriving DecidableEq, BEq, Repr

/-- Numeric value of each enumerator, as C assigns them with Invalid = -1
first and MaxDefined last. -/
def msgCode : Msg → Int
  | .MsgInvalid => -1
  | .MsgSetup => 0
  | .MsgTick => 1
  | .MsgVoid => 2
  | .MsgBoolean => 3
  | .MsgByte => 4
  | .MsgAscii => 5
  | .MsgInteger => 6
  | .MsgFloat => 7
  | .MsgBracketStart => 8
  | .MsgBracketEnd => 9
  | .MsgMaxDefined => 10

/-- The union PacketData of microflo.h: one payload slot. The float member
is carried as its 32-bit pattern; no claim inspects numeric float values. -/
inductive PacketData where
  | voidData
  | booleanData (b : Bool)
  | chData (c : Nat)
  | byteData (b : Nat)
  | lngData (l : Int)
  | fltData (bits : Nat)
deriving DecidableEq, Repr

/-- The Packet class of microflo.h: a tag plus the payload union. -/
structure Packet where
  msg : Msg
  data : PacketData
deriving DecidableEq, Repr

def Packet.type (p : Packet) : Msg := p.msg

def Packet.isValid (p : Packet) : Bool :=
  msgCode .MsgInvalid < msgCode p.msg && msgCode p.msg < msgCode .MsgMaxDefined

def Packet.isSetup (p : Packet) : Bool := p.msg == .MsgSetup

def Packet.isTick (p : Packet) : Bool := p.msg == .MsgTick

def Packet.isSpecial (p : Packet) : Bool := p.isSetup || p.isTick

def Packet.isVoid (p : Packet) : Bool := p.msg == .MsgVoid

def Packet.isStartBracket (p : Packet) : Bool := p.msg == .MsgBracketStart

def Packet.isEndBracket (p : Packet) : Bool := p.msg == .MsgBracketEnd

def Packet.isData (p : Packet) : Bool := p.isValid && !p.isSpecial

def Packet.isBool (p : Packet) : Bool := p.msg == .MsgBoolean

def Packet.isByte (p : Packet) : Bool := p.msg == .MsgByte

def Packet.isAscii (p : Packet) : Bool := p.msg == .MsgAscii

def Packet.isInteger (p : Packet) : Bool := p.msg == .MsgInteger

def Packet.isFloat (p : Packet) : Bool := p.msg == .MsgFloat

def Packet.isNumber (p : Packet) : Bool := p.isInteger || p.isFloat

/-- Modelled from the spec: the debug level enumeration of commandformat.h
(not under src), ordered Off < Error < Info < Detailed, monotonically
controlling verbosity. -/
inductive DebugLevel where
  | DebugLevelOff
  | DebugLevelError
  | DebugLevelInfo
  | DebugLevelDetailed
deriving DecidableEq, Repr

def debugLevelCode : DebugLevel → Nat
  | .DebugLevelOff => 0
  | .DebugLevelError => 1
  | .DebugLevelInfo => 2
  | .DebugLevelDetailed => 3

/-- Modelled from the spec: the debug id enumeration of commandformat.h
(not under src); only the ids the claims mention are carried. -/
inductive DebugId where
  | DebugIoOperationNotImplemented
  | DebugMessageQueueFull
  | DebugNodeUpperLimitReached
  | DebugNotRunning
deriving DecidableEq, Repr

/-- The MICROFLO_DEBUG macro of microflo.h: if the handler is non-null it
forwards one (level, code) event to the handler, otherwise nothing.
The returned list is the sequence of events handed to the handler. -/
def MICROFLO_DEBUG (handler : Bool) (level : DebugLevel) (code : DebugId) :
    List (DebugLevel × DebugId) :=
  if handler then [(level, code)] else []

def MICROFLO_MAX_PORTS : Nat := 255

def MICROFLO_MAX_NODES : Nat := 50

def MICROFLO_MAX_MESSAGES : Nat := 50

def MICROFLO_CMD_SIZE : Nat := 1 + 7

/-- gMagic from the Stellaris target code in src/doc/braindump.md. -/
def gMagic : String := "MAGIC!012"

def gMagicBytes : List Nat := gMagic.toList.map Char.toNat

/-- MicroFlo::NodeId, a typedef for uint8_t in microflo.h. -/
abbrev NodeId := Fin 256

/-- The Component class of microflo.h, reduced to the fields the Network
reads and writes: type id, assigned node id, parent node id. Node and
network back-pointers are represented as ids. -/
structure Component where
  componentId : Nat
  nodeId : Nat
  parentNodeId : Nat
deriving DecidableEq, Repr

/-- The Message struct of microflo.h: target (as node id), target port,
packet. -/
structure Message where
  target : Nat
  targetPort : Int
  pkg : Packet
deriving DecidableEq, Repr

def defaultMessage : Message :=
  { target := 0, targetPort := 0, pkg := { msg := .MsgVoid, data := .voidData } }

/-- Network::State from microflo.h. -/
inductive NetworkState where
  | Invalid
  | Stopped
  | Running
deriving DecidableEq, Repr

/-- The Network class fields of microflo.h. The node table is the list of
added nodes (the fixed array up to lastAddedNodeIndex); the circular message
buffer is a function of slot index, with messageReadIndex and
messageWriteIndex kept as monotone counters whose physical slot is the
counter modulo MICROFLO_MAX_MESSAGES. -/
structure Network where
  nodes : List Component
  messages : Nat → Message
  messageWriteIndex : Nat
  messageReadIndex : Nat
  notificationHandler : Bool
  state : NetworkState
  debugLevel : DebugLevel

def Network.firstNodeId : NodeId := ⟨1, by decide⟩

/-- Reserved NodeId 0, per the comment on Network::firstNodeId:
0 = reserved, no-parent-node. -/
def noParentNodeId : NodeId := ⟨0, by decide⟩

/-- Modelled from the spec: the body of Network::addNode is not under src
(microflo.h only declares it). Appends the component at the next free slot,
binds the node id (= index + 1) and the parent, and fails soft when the
table is full. -/
def Network.addNode (net : Network) (c : Component) (parentId : Nat) :
    Network × Option Nat :=
  if net.nodes.length < MICROFLO_MAX_NODES then
    let id := net.nodes.length + 1
    ({ net with
        nodes := net.nodes ++ [{ c with nodeId := id, parentNodeId := parentId }] },
      some id)
  else
    (net, none)

/-- Modelled from the spec: the body of Network::sendMessage is not under
src. Enqueues onto the circular buffer; when the window is full the message
is dropped (MessageQueueFull). -/
def Network.sendMessage (net : Network) (m : Message) : Network :=
  if net.messageWriteIndex - net.messageReadIndex < MICROFLO_MAX_MESSAGES then
    { net with
        messages := fun i =>
          if i = net.messageWriteIndex % MICROFLO_MAX_MESSAGES then m
          else net.messages i,
        messageWriteIndex := net.messageWriteIndex + 1 }
  else
    net

/-- The live FIFO window of the message queue: the slots from readIndex
(inclusive) to writeIndex (exclusive), read modulo capacity. -/
def Network.queueContents (net : Network) : List Message :=
  (List.range (net.messageWriteIndex - net.messageReadIndex)).map
    (fun i => net.messages ((net.messageReadIndex + i) % MICROFLO_MAX_MESSAGES))

/-- Modelled from the spec: the delivery loop of Network::processMessages is
not under src. Dequeues the oldest message, runs the target component
(abstracted as beh, giving the messages its process call sends), enqueues
those at the tail, and repeats until readIndex equals writeIndex. Fuel bounds
the recursion; none means the fuel ran out before the queue drained. -/
def Network.processMessages (beh : Message → List Message) :
    Nat → Network → Option Network
  | 0, _ => none
  | fuel + 1, net =>
    if net.messageReadIndex = net.messageWriteIndex then
      some net
    else
      let m := net.messages (net.messageReadIndex % MICROFLO_MAX_MESSAGES)
      let net1 := { net with messageReadIndex := net.messageReadIndex + 1 }
      let net2 := (beh m).foldl Network.sendMessage net1
      Network.processMessages beh fuel net2

def tickPacket : Packet := { msg := .MsgTick, data := .voidData }

/-- Modelled from the spec: broadcast of a Tick packet to every node. -/
def Network.broadcastTick (net : Network) : Network :=
  net.nodes.foldl
    (fun n c => n.sendMessage { target := c.nodeId, targetPort := 0, pkg := tickPacket })
    net

/-- Modelled from the spec: the body of Network::runTick is not under src.
If Running: deliver all queued messages, broadcast Tick to every node, then
deliver the messages that resulted. If not Running it is a no-op that emits
NotRunning at debug level. -/
def Network.runTick (beh : Message → List Message) (fuel : Nat) (net : Network) :
    Option Network :=
  if net.state = NetworkState.Running then
    match Network.processMessages beh fuel net with
    | some n1 => Network.processMessages beh fuel n1.broadcastTick
    | none => none
  else
    some net

/-- Modelled from the spec: the body of Network::emitDebug is not under src.
If level is at most the current debugLevel, forwards through MICROFLO_DEBUG
(which checks the handler for null) to the notification handler. Returns the
events the handler receives. -/
def Network.emitDebug (net : Network) (level : DebugLevel) (id : DebugId) :
    List (DebugLevel × DebugId) :=
  if debugLevelCode level ≤ debugLevelCode net.debugLevel then
    MICROFLO_DEBUG net.notificationHandler level id
  else
    []

/-- Modelled from the spec: the body of Network::reset is not under src.
Drains the queue, transitions to Stopped, clears the node table. -/
def Network.reset (net : Network) : Network :=
  { net with
      nodes := [],
      messageWriteIndex := 0,
      messageReadIndex := 0,
      state := NetworkState.Stopped }

/-- Dense id invariant of the node table: the node stored at index i holds
node id i + 1. -/
def nodesIndexed (net : Network) : Prop :=
  ∀ i (h : i < net.nodes.length), (net.nodes.get ⟨i, h⟩).nodeId = i + 1

/-- HostCommunication::State from microflo.h (lines 357-362): the
enumeration has an Invalid sentinel (= -1) besides the three operational
parser states. -/
inductive HostCommunicationState where
  | Invalid
  | ParseHeader
  | ParseCmd
  | LookForHeader
deriving DecidableEq, Repr

def hostCommunicationStateCode : HostCommunicationState → Int
  | .Invalid => -1
  | .ParseHeader => 0
  | .ParseCmd => 1
  | .LookForHeader => 2

/-- The HostCommunication fields the parser uses: current state, the
fixed-size command buffer (kept as the list of bytes accumulated so far,
never longer than MICROFLO_CMD_SIZE), and the match position inside the
magic header while scanning. -/
structure HostCommunicationModel where
  state : HostCommunicationState
  buffer : List Nat
  magicPos : Nat
deriving DecidableEq, Repr

/-- Modelled from the spec: the body of HostCommunication::parseByte is not
under src. Scans bytes until the 9-byte magic header is matched, then
switches to ParseCmd; in ParseCmd it accumulates bytes into the
MICROFLO_CMD_SIZE buffer and dispatches parseCmd when the frame is complete.
The second component is the completed frame handed to parseCmd, when one is
dispatched on this byte. -/
def parseByte (hc : HostCommunicationModel) (b : Nat) :
    HostCommunicationModel × Option (List Nat) :=
  match hc.state with
  | .LookForHeader =>
    if b = gMagicBytes.getD hc.magicPos 0 then
      if hc.magicPos + 1 = gMagicBytes.length then
        ({ state := .ParseCmd, buffer := [], magicPos := 0 }, none)
      else
        ({ hc with magicPos := hc.magicPos + 1 }, none)
    else
      ({ hc with magicPos := 0 }, none)
  | .ParseHeader =>
    ({ hc with state := .LookForHeader, magicPos := 0 }, none)
  | .ParseCmd =>
    let buf := hc.buffer ++ [b]
    if buf.length = MICROFLO_CMD_SIZE then
      ({ hc with buffer := [] }, some buf)
    else
      ({ hc with buffer := buf }, none)
  | .Invalid => (hc, none)

/-- StellarisIO::DigitalRead from src/doc/braindump.md: emits
DebugIoOperationNotImplemented through MICROFLO_DEBUG and returns false.
The Bool argument models whether the debug handler pointer is set. -/
def StellarisIo.DigitalRead (debug : Bool) (pin : Int) :
    List (DebugLevel × DebugId) × Bool :=
  (MICROFLO_DEBUG debug .DebugLevelError .DebugIoOperationNotImplemented, false)

/-- StellarisIO::AnalogRead from src/doc/braindump.md: emits
DebugIoOperationNotImplemented and returns 0. -/
def StellarisIo.AnalogRead (debug : Bool) (pin : Int) :
    List (DebugLevel × DebugId) × Int :=
  (MICROFLO_DEBUG debug .DebugLevelError .DebugIoOperationNotImplemented, 0)

/-- StellarisIO::PwmWrite from src/doc/braindump.md: emits
DebugIoOperationNotImplemented and does nothing else. -/
def StellarisIo.PwmWrite (debug : Bool) (pin : Int) (dutyPercent : Int) :
    List (DebugLevel × DebugId) :=
  MICROFLO_DEBUG debug .DebugLevelError .DebugIoOperationNotImplemented

/-- StellarisIO::AttachExternalInterrupt from src/doc/braindump.md: emits
DebugIoOperationNotImplemented and does nothing else. -/
def StellarisIo.AttachExternalInterrupt (debug : Bool) (interrupt : Int) :
    List (DebugLevel × DebugId) :=
  MICROFLO_DEBUG debug .DebugLevelError .DebugIoOperationNotImplemented

/-- Wrap an integer to the signed 32-bit range of the C long type on the
embedded targets. -/
def toSigned32 (n : Int) : Int := (n + 2 ^ 31) % 2 ^ 32 - 2 ^ 31

/-- An IO implementation that does not override TimerCurrentMicros: all the
base class fixes is the millisecond clock, here a function of an abstract
time state. -/
structure IoBase where
  TimerCurrentMs : Nat → Int

/-- The base-class virtual IO::TimerCurrentMicros of microflo.h line 252:
return TimerCurrentMs() * 1000, in C long arithmetic. -/
def IoBase.TimerCurrentMicros (base : IoBase) (t : Nat) : Int :=
  toSigned32 (base.TimerCurrentMs t * 1000)

/-- Concrete networks used to instantiate the theorems below. -/
def sampleNet : Network :=
  { nodes := []
    messages := fun _ => defaultMessage
    messageWriteIndex := 0
    messageReadIndex := 0
    notificationHandler := true
    state := NetworkState.Stopped
    debugLevel := DebugLevel.DebugLevelError }

def runningNet : Network :=
  { sampleNet with state := NetworkState.Running, messageWriteIndex := 1 }

def stoppedPendingNet : Network :=
  { sampleNet with messageWriteIndex := 1 }

def hc7 : HostCommunicationModel :=
  { state := HostCommunicationState.ParseCmd
    buffer := [1, 2, 3, 4, 5, 6, 7]
    magicPos := 0 }

def constMsClock : IoBase := { TimerCurrentMs := fun _ => 5 }

/-- Claim C3: for every Packet p, isData holds iff p is valid (kind strictly
between the Invalid and MaxDefined sentinels) and p is not special (Setup or
Tick); and isNumber holds iff the kind is Integer or Float. -/
theorem packet_isData_isNumber_characterization :
    ∀ p : Packet,
      (p.isData = true ↔
        (msgCode .MsgInvalid < msgCode p.msg ∧ msgCode p.msg < msgCode .MsgMaxDefined
          ∧ ¬(p.msg = .MsgSetup ∨ p.msg = .MsgTick)))
      ∧ (p.isNumber = true ↔ (p.msg = .MsgInteger ∨ p.msg = .MsgFloat)) := by
  intro p
  obtain ⟨m, d⟩ := p
  cases m <;>
    simp [Packet.isData, Packet.isValid, Packet.isSpecial, Packet.isSetup,
      Packet.isTick, Packet.isNumber, Packet.isInteger, Packet.isFloat, msgCode] <;>
    decide

/-- Claim C5: the startup magic header is the 9 ASCII bytes of the string
MAGIC!012, namely 4D 41 47 49 43 21 30 31 32. -/
theorem gMagic_is_MAGIC012 :
    gMagicBytes = [0x4D, 0x41, 0x47, 0x49, 0x43, 0x21, 0x30, 0x31, 0x32]
    ∧ gMagicBytes.length = 9 ∧ gMagic = "MAGIC!012" := by
  refine ⟨by decide, by decide, rfl⟩

/-- Claim C7: NodeId is an 8-bit unsigned integer, the value 0 is reserved
to mean no parent, and the first assignable node id, Network::firstNodeId,
is 1: the first addNode on a reset network assigns exactly that id. -/
theorem nodeId_eight_bit_zero_reserved :
    Fintype.card NodeId = 2 ^ 8
    ∧ Network.firstNodeId.val = 1
    ∧ noParentNodeId.val = 0
    ∧ noParentNodeId ≠ Network.firstNodeId
    ∧ ((sampleNet.reset).addNode ⟨3, 0, 0⟩ noParentNodeId.val).2
        = some Network.firstNodeId.val := by
  refine ⟨by rw [Fintype.card_fin]; norm_num, rfl, rfl, by decide, by decide⟩

/-- Claim C8 counterexample: the State enumeration of HostCommunication has
a fourth value, the Invalid sentinel, so the parser does not have exactly
the three states LookForHeader, ParseHeader, ParseCmd. -/
theorem hostCommunicationState_not_exactly_three :
    ¬ (∀ s : HostCommunicationState,
        s = HostCommunicationState.LookForHeader
        ∨ s = HostCommunicationState.ParseHeader
        ∨ s = HostCommunicationState.ParseCmd) := by
  intro h
  rcases h HostCommunicationState.Invalid with h1 | h1 | h1 <;>
    exact HostCommunicationState.noConfusion h1

/-- Claim C8 (amended): the HostCommunication State enumeration has exactly
four distinct values: the Invalid sentinel (value -1) plus the three
operational parser states ParseHeader, ParseCmd and LookForHeader. -/
theorem hostCommunicationState_exactly_four :
    (∀ s : HostCommunicationState,
        s = HostCommunicationState.Invalid
        ∨ s = HostCommunicationState.ParseHeader
        ∨ s = HostCommunicationState.ParseCmd
        ∨ s = HostCommunicationState.LookForHeader)
    ∧ [HostCommunicationState.Invalid, HostCommunicationState.ParseHeader,
        HostCommunicationState.ParseCmd, HostCommunicationState.LookForHeader].Nodup
    ∧ hostCommunicationStateCode HostCommunicationState.Invalid = -1 := by
  refine ⟨fun s => ?_, by decide, rfl⟩
  cases s
  · exact Or.inl rfl
  · exact Or.inr (Or.inl rfl)
  · exact Or.inr (Or.inr (Or.inl rfl))
  · exact Or.inr (Or.inr (Or.inr rfl))

/-- Claim C9: on the Stellaris target the unimplemented IO primitives
DigitalRead, AnalogRead, PwmWrite and AttachExternalInterrupt each emit the
DebugIoOperationNotImplemented id at error level (when the debug handler is
set) and have no effect beyond returning the default value (false for
DigitalRead, 0 for AnalogRead, nothing for the writes). -/
theorem stellaris_unimplemented_emit_debug :
    ∀ (dbg : Bool) (pin duty intr : Int),
      dbg = true →
      StellarisIo.DigitalRead dbg pin
          = ([(DebugLevel.DebugLevelError, DebugId.DebugIoOperationNotImplemented)], false)
      ∧ StellarisIo.AnalogRead dbg pin
          = ([(DebugLevel.DebugLevelError, DebugId.DebugIoOperationNotImplemented)], 0)
      ∧ StellarisIo.PwmWrite dbg pin duty
          = [(DebugLevel.DebugLevelError, DebugId.DebugIoOperationNotImplemented)]
      ∧ StellarisIo.AttachExternalInterrupt dbg intr
          = [(DebugLevel.DebugLevelError, DebugId.DebugIoOperationNotImplemented)] := by
  intro dbg pin duty intr h
  subst h
  exact ⟨rfl, rfl, rfl, rfl⟩

/-- Witness for claim C9 at a set debug handler and pin 0. -/
theorem stellaris_unimplemented_emit_debug_witness :
    StellarisIo.DigitalRead true 0
        = ([(DebugLevel.DebugLevelError, DebugId.DebugIoOperationNotImplemented)], false)
    ∧ StellarisIo.AnalogRead true 0
        = ([(DebugLevel.DebugLevelError, DebugId.DebugIoOperationNotImplemented)], 0)
    ∧ StellarisIo.PwmWrite true 0 0
        = [(DebugLevel.DebugLevelError, DebugId.DebugIoOperationNotImplemented)]
    ∧ StellarisIo.AttachExternalInterrupt true 0
        = [(DebugLevel.DebugLevelError, DebugId.DebugIoOperationNotImplemented)] :=
  stellaris_unimplemented_emit_debug true 0 0 0 rfl

/-- Claim C10: for any IO implementation that does not override it, the
base-class TimerCurrentMicros returns exactly TimerCurrentMs() * 1000
(whenever the product fits the signed 32-bit long range). -/
theorem timerCurrentMicros_is_ms_times_1000 :
    ∀ (base : IoBase) (t : Nat),
      -(2 ^ 31) ≤ base.TimerCurrentMs t * 1000 →
      base.TimerCurrentMs t * 1000 < 2 ^ 31 →
      base.TimerCurrentMicros t = base.TimerCurrentMs t * 1000 := by
  intro base t h1 h2
  unfold IoBase.TimerCurrentMicros toSigned32
  have h0 : (0 : Int) ≤ base.TimerCurrentMs t * 1000 + 2 ^ 31 := by linarith
  have hlt : base.TimerCurrentMs t * 1000 + 2 ^ 31 < 2 ^ 32 := by
    have h32 : (2 : Int) ^ 31 + 2 ^ 31 = 2 ^ 32 := by norm_num
    linarith
  rw [Int.emod_eq_of_lt h0 hlt]
  ring

/-- Witness for claim C10 at a constant 5 ms clock. -/
theorem timerCurrentMicros_is_ms_times_1000_witness :
    constMsClock.TimerCurrentMicros 0 = constMsClock.TimerCurrentMs 0 * 1000 :=
  timerCurrentMicros_is_ms_times_1000 constMsClock 0 (by decide) (by decide)

/-- Claim C6: Network::emitDebug forwards to the notification handler iff
level ≤ the current debugLevel (given the handler is set), and every event
actually emitted has level ≤ the current debugLevel. -/
theorem emitDebug_filters_by_level :
    ∀ (net : Network) (level : DebugLevel) (id : DebugId),
      (net.notificationHandler = true →
        (net.emitDebug level id ≠ [] ↔
          debugLevelCode level ≤ debugLevelCode net.debugLevel))
      ∧ ∀ ev ∈ net.emitDebug level id,
          debugLevelCode ev.1 ≤ debugLevelCode net.debugLevel := by
  intro net level id
  unfold Network.emitDebug MICROFLO_DEBUG
  by_cases hle : debugLevelCode level ≤ debugLevelCode net.debugLevel <;>
    cases hnh : net.notificationHandler <;>
      simp [hle, hnh]

/-- Witness for claim C6: with the handler set and the level equal to the
current debug level, the event is forwarded. -/
theorem emitDebug_filters_by_level_witness :
    sampleNet.emitDebug DebugLevel.DebugLevelError DebugId.DebugNotRunning ≠ [] :=
  ((emitDebug_filters_by_level sampleNet DebugLevel.DebugLevelError
      DebugId.DebugNotRunning).1 rfl).mpr (by decide)

/-- Claim C4: a command frame is exactly MICROFLO_CMD_SIZE = 8 bytes (one
opcode plus seven payload bytes), and the parser in the ParseCmd state
dispatches parseCmd exactly when the accumulated buffer reaches 8 bytes,
handing it the complete 8-byte frame. -/
theorem command_frames_are_eight_bytes :
    MICROFLO_CMD_SIZE = 8
    ∧ ∀ (hc : HostCommunicationModel) (b : Nat),
        hc.state = HostCommunicationState.ParseCmd →
        (((parseByte hc b).2 ≠ none) ↔ hc.buffer.length + 1 = MICROFLO_CMD_SIZE)
        ∧ ∀ frame, (parseByte hc b).2 = some frame →
            frame.length = MICROFLO_CMD_SIZE ∧ frame = hc.buffer ++ [b] := by
  refine ⟨rfl, ?_⟩
  intro hc b hstate
  simp only [parseByte, hstate]
  by_cases hlen : (hc.buffer ++ [b]).length = MICROFLO_CMD_SIZE
  · simp only [hlen, if_true]
    constructor
    · simp only [List.length_append, List.length_singleton] at hlen
      simp [hlen]
    · intro frame hframe
      cases hframe
      exact ⟨hlen, rfl⟩
  · simp only [hlen, if_false]
    constructor
    · simp only [List.length_append, List.length_singleton] at hlen
      simp [hlen]
    · intro frame hframe
      cases hframe

/-- Witness for claim C4: with seven bytes buffered in ParseCmd, the next
byte completes and dispatches a frame. -/
theorem command_frames_are_eight_bytes_witness :
    (parseByte hc7 8).2 ≠ none :=
  ((command_frames_are_eight_bytes.2 hc7 8 rfl).1).mpr (by decide)

/-- Claim C1: every node successfully added via addNode gets the id
index + 1, nodes[id - 1] is that node, ids are assigned densely in
insertion order, and the new id is never one already in use. -/
theorem addNode_assigns_dense_ids :
    ∀ (net : Network) (c : Component) (parentId : Nat),
      nodesIndexed net →
      nodesIndexed (net.addNode c parentId).1
      ∧ ∀ id, (net.addNode c parentId).2 = some id →
          id = net.nodes.length + 1
          ∧ (net.addNode c parentId).1.nodes.get? (id - 1)
              = some { c with nodeId := id, parentNodeId := parentId }
          ∧ ∀ old ∈ net.nodes, old.nodeId ≠ id := by
  intro net c parentId hInd
  by_cases hlt : net.nodes.length < MICROFLO_MAX_NODES
  · have haddEq : net.addNode c parentId =
        ({ net with nodes := net.nodes ++
            [{ c with nodeId := net.nodes.length + 1, parentNodeId := parentId }] },
          some (net.nodes.length + 1)) := by
      unfold Network.addNode
      rw [if_pos hlt]
    rw [haddEq]
    constructor
    · intro i h
      rw [List.get_eq_getElem, List.getElem_append]
      by_cases hi : i < net.nodes.length
      · rw [dif_pos hi]
        have hGet := hInd i hi
        rw [List.get_eq_getElem] at hGet
        exact hGet
      · have hlen : i < net.nodes.length + 1 := by
          simpa using h
        have hi2 : i = net.nodes.length := by omega
        subst hi2
        rw [dif_neg hi]
        simp
    · intro id hid
      obtain rfl : net.nodes.length + 1 = id := Option.some_inj.mp hid
      refine ⟨rfl, ?_, ?_⟩
      · simp
      · intro old hold
        obtain ⟨n, hn⟩ := List.mem_iff_get.mp hold
        have hIdx := hInd n.1 n.2
        have hn2 : n.1 < net.nodes.length := n.2
        rw [show (⟨n.1, n.2⟩ : Fin net.nodes.length) = n from rfl, hn] at hIdx
        omega
  · have haddEq : net.addNode c parentId = (net, none) := by
      unfold Network.addNode
      rw [if_neg hlt]
    rw [haddEq]
    refine ⟨hInd, ?_⟩
    intro id hid
    exact Option.noConfusion hid

/-- Witness for claim C1: adding a node to the empty reset network keeps the
dense-id invariant. -/
theorem addNode_assigns_dense_ids_witness :
    nodesIndexed (sampleNet.addNode ⟨7, 0, 0⟩ 0).1 :=
  (addNode_assigns_dense_ids sampleNet ⟨7, 0, 0⟩ 0
    (by intro i h; simp [sampleNet] at h)).1

/-- Enqueue is FIFO: with a non-full window, sendMessage appends the message
at the tail of the live window. -/
theorem sendMessage_appends_to_window (net : Network) (m : Message)
    (hle : net.messageReadIndex ≤ net.messageWriteIndex)
    (hlt : net.messageWriteIndex - net.messageReadIndex < MICROFLO_MAX_MESSAGES) :
    (net.sendMessage m).queueContents = net.queueContents ++ [m] := by
  unfold Network.sendMessage Network.queueContents
  rw [if_pos hlt]
  have hspan : net.messageWriteIndex + 1 - net.messageReadIndex
      = (net.messageWriteIndex - net.messageReadIndex) + 1 := by omega
  simp only []
  rw [hspan, List.range_succ, List.map_append, List.map_cons, List.map_nil]
  congr 1
  · apply List.map_congr_left
    intro i hi
    have hi2 : i < net.messageWriteIndex - net.messageReadIndex := List.mem_range.mp hi
    rw [if_neg]
    intro hEq
    have h1 : net.messageReadIndex + i < net.messageWriteIndex := by omega
    have hdvd : MICROFLO_MAX_MESSAGES
        ∣ net.messageWriteIndex - (net.messageReadIndex + i) :=
      (Nat.modEq_iff_dvd' (Nat.le_of_lt h1)).mp hEq
    have hpos : 0 < net.messageWriteIndex - (net.messageReadIndex + i) := by omega
    have hcap := Nat.le_of_dvd hpos hdvd
    omega
  · have hend : net.messageReadIndex + (net.messageWriteIndex - net.messageReadIndex)
        = net.messageWriteIndex := by omega
    rw [hend, if_pos rfl]

/-- The delivery loop only returns when readIndex has caught up with
writeIndex. -/
theorem processMessages_drains (beh : Message → List Message) :
    ∀ (fuel : Nat) (net net2 : Network),
      Network.processMessages beh fuel net = some net2 →
      net2.messageReadIndex = net2.messageWriteIndex := by
  intro fuel
  induction fuel with
  | zero =>
    intro net net2 h
    exact Option.noConfusion h
  | succ n ih =>
    intro net net2 h
    unfold Network.processMessages at h
    by_cases hrw : net.messageReadIndex = net.messageWriteIndex
    · rw [if_pos hrw] at h
      obtain rfl : net = net2 := Option.some_inj.mp h
      exact hrw
    · rw [if_neg hrw] at h
      exact ih _ _ h

/-- Claim C2 (amended): the message queue is a FIFO over the live window
[readIndex, writeIndex): sendMessage appends at the tail when the window is
not full and drops the message when it is, the write position advances
modulo capacity, and whenever runTick returns with the network Running the
queue has been fully drained: readIndex = writeIndex. -/
theorem messageQueue_fifo_and_drain :
    ∀ (net : Network) (m : Message) (beh : Message → List Message) (fuel : Nat),
      (net.messageReadIndex ≤ net.messageWriteIndex →
        net.messageWriteIndex - net.messageReadIndex < MICROFLO_MAX_MESSAGES →
        (net.sendMessage m).queueContents = net.queueContents ++ [m]
        ∧ (net.sendMessage m).messageWriteIndex % MICROFLO_MAX_MESSAGES
            = (net.messageWriteIndex + 1) % MICROFLO_MAX_MESSAGES
        ∧ (net.sendMessage m).messageReadIndex = net.messageReadIndex)
      ∧ (¬ net.messageWriteIndex - net.messageReadIndex < MICROFLO_MAX_MESSAGES →
          net.sendMessage m = net)
      ∧ (net.state = NetworkState.Running →
          Option.all (fun n2 => n2.messageReadIndex == n2.messageWriteIndex)
            (Network.runTick beh fuel net) = true) := by
  intro net m beh fuel
  refine ⟨?_, ?_, ?_⟩
  · intro hle hlt
    refine ⟨sendMessage_appends_to_window net m hle hlt, ?_, ?_⟩
    · unfold Network.sendMessage
      rw [if_pos hlt]
    · unfold Network.sendMessage
      rw [if_pos hlt]
  · intro hfull
    unfold Network.sendMessage
    rw [if_neg hfull]
  · intro hrun
    unfold Network.runTick
    rw [if_pos hrun]
    cases h1 : Network.processMessages beh fuel net with
    | none => rfl
    | some n1 =>
      cases h2 : Network.processMessages beh fuel n1.broadcastTick with
      | none => simp [Option.all, h2]
      | some n2 =>
        have hdrained := processMessages_drains beh fuel n1.broadcastTick n2 h2
        simp [Option.all, h2, hdrained]

/-- Claim C2 counterexample: runTick on a Stopped network is a no-op, so a
message queued while stopped leaves readIndex different from writeIndex
after runTick returns. -/
theorem runTick_stopped_does_not_drain :
    Network.runTick (fun _ => []) 5 stoppedPendingNet = some stoppedPendingNet
    ∧ stoppedPendingNet.messageReadIndex ≠ stoppedPendingNet.messageWriteIndex :=
  ⟨rfl, by decide⟩

/-- Witness for claim C2: a running network with one queued message appends
sends in FIFO order and is fully drained by runTick. -/
theorem messageQueue_fifo_and_drain_witness :
    (runningNet.sendMessage defaultMessage).queueContents
        = runningNet.queueContents ++ [defaultMessage]
    ∧ Option.all (fun n2 => n2.messageReadIndex == n2.messageWriteIndex)
        (Network.runTick (fun _ => []) 5 runningNet) = true :=
  ⟨((messageQueue_fifo_and_drain runningNet defaultMessage (fun _ => []) 5).1
      (by decide) (by decide)).1,
    (messageQueue_fifo_and_drain runningNet defaultMessage (fun _ => []) 5).2.2 rfl⟩

